import Mathlib

/-!
Verification development for the `plover_tapey_tape` plugin
(`src/plover_tapey_tape.py`).  The Python module is shallowly embedded:
each method of class `TapeyTape` becomes an executable Lean definition,
the engine collaborators (`RetroFormatter`, `engine.get_suggestions`,
`plover.system.*`) become fields of an `Env` record, the mutable
attributes of the plugin object become a `TTState` record threaded
through `on_stroked`, and the append-only log file becomes the ordered
list of strings passed to `file.write`.  Machine floats are modelled as
rationals; Python text predicates (`str.isspace`, `str.rstrip`, the
regex class `\s`) use the ASCII whitespace set.
-/

namespace TapeyTape

/-- ASCII fragment of Python's whitespace test (`str.isspace`, `str.rstrip`,
and the regex class used at line 70).  The six ASCII whitespace characters. -/
def pySpace (c : Char) : Bool :=
  c = ' ' || c = '\t' || c = '\n' || c = '\r' || c = '\x0b' || c = '\x0c'

/-- Python `str.rstrip()` (no argument): remove trailing whitespace. -/
def rstrip (s : String) : String :=
  String.mk ((s.toList.reverse.dropWhile pySpace).reverse)

/-- Python `str.rjust(n)` (space fill): pad on the left to length `n`. -/
def rjust (n : Nat) (s : String) : String :=
  String.mk (List.replicate (n - s.length) ' ') ++ s

/-- Python `str.strip('-')`: remove `-` characters from both ends
(line 160, `key.strip('-')`). -/
def stripDash (s : String) : String :=
  String.mk (((s.toList.dropWhile (· = '-')).reverse.dropWhile (· = '-')).reverse)

/-- Python `int(x)` on a float: truncation toward zero. -/
def ratTrunc (q : ℚ) : ℤ :=
  if 0 ≤ q then ⌊q⌋ else ⌈q⌉

/-- `formatted.translate(SHOW_WHITESPACE)` (lines 11 and 205): replace each
control character `\n`, `\r`, `\t` by its visible two-character escape. -/
def showWhitespace (s : String) : String :=
  String.join (s.toList.map (fun c =>
    if c = '\n' then "\\n"
    else if c = '\r' then "\\r"
    else if c = '\t' then "\\t"
    else String.mk [c]))

/-- One formatting action of a Plover translation: optional literal text and
the glue flag (the only attributes the plugin reads). -/
structure Action where
  text : Option String
  glue : Bool
deriving DecidableEq, Repr

/-- One history entry ("translation") as read by the plugin: the chord codes
that produced it (`rtfcre`), its formatting actions, its raw dictionary
definition (`english`, absent for untranslates), the number of contributing
strokes (Python reads only `len(translation.strokes)`), and whether its
production replaced prior entries (Python reads only the truthiness of the
`replaced` list). -/
structure Translation where
  rtfcre : List String
  formatting : List Action
  english : Option String
  strokes : Nat
  replaced : Bool
deriving DecidableEq, Repr

/-- One stroke event: the raw key identifiers and the correction flag. -/
structure Stroke where
  steno_keys : List String
  is_correction : Bool
deriving DecidableEq, Repr

/-- One suggestion returned by `engine.get_suggestions`: its list of
alternate outlines, each outline a list of chord codes. -/
structure Suggestion where
  steno_list : List (List String)
deriving DecidableEq, Repr

/-- The two output styles (lines 63-65, 198-202). -/
inductive OutputStyle where
  | translation
  | definition
deriving DecidableEq, Repr

/-- The field map `self.items` built at lines 234-238. -/
structure Items where
  b : String
  s : String
  t : String
  h : String
deriving DecidableEq, Repr

/-- `items.get(key, '')` as used by `expand` (line 19): the four fields plus
the literal-percent entry; every other key is absent. -/
def Items.get (it : Items) (c : Char) : Option String :=
  if c = 'b' then some it.b
  else if c = 's' then some it.s
  else if c = 't' then some it.t
  else if c = 'h' then some it.h
  else if c = '%' then some "%"
  else none

/-- `re.sub('%(.)', lambda match: items.get(match.group(1), ''), fmt)`
(line 19), on character lists.  `.` does not match a newline, and a final
lone `%` matches nothing. -/
def expandL (get : Char → Option String) : List Char → List Char
  | [] => []
  | ['%'] => ['%']
  | '%' :: c :: rest =>
      if c = '\n' then '%' :: expandL get (c :: rest)
      else ((get c).getD "").toList ++ expandL get rest
  | c :: rest => c :: expandL get rest

/-- `TapeyTape.expand(format_string, items)` (lines 17-19). -/
def expand (fmt : String) (it : Items) : String :=
  String.mk (expandL it.get fmt.toList)

/-- `TapeyTape.is_fingerspelling` (lines 21-24): any action has glue. -/
def is_fingerspelling (t : Translation) : Bool :=
  t.formatting.any (fun a => a.glue)

/-- `TapeyTape.is_whitespace` (lines 26-28): every action has no text, or
text that is empty or all whitespace (`not action.text or
action.text.isspace()`). -/
def is_whitespace (t : Translation) : Bool :=
  t.formatting.all (fun a =>
    match a.text with
    | none => true
    | some s => s.toList.all pySpace)

/-- The plugin's start-time attributes together with its external
collaborators: `retroformat` (line 13-15, a `RetroFormatter` call),
the engine's suggestion lookup (line 40), the configured style, the two
template halves (lines 70-71), the bar parameters (lines 55-61), and the
key layout data `plover.system.NUMBERS` (inverted, line 74),
`plover.system.NUMBER_KEY` and `plover.system.KEYS` (lines 153-160). -/
structure Env where
  retroformat : List Translation → String
  get_suggestions : String → List Suggestion
  output_style : OutputStyle
  left_format : String
  right_format : String
  bar_time_unit : ℚ
  bar_max_width : Nat
  numbers : String → Option String
  number_key : String
  keys : List String

/-- The mutable plugin state: `self.last_stroke_time` (a wall-clock instant,
modelled as a rational), `self.was_fingerspelling`, `self.items`, and the
log file as the ordered list of strings passed to `self.file.write`. -/
structure TTState where
  last_stroke_time : Option ℚ
  was_fingerspelling : Bool
  items : Items
  file : List String

/-- `TapeyTape.get_suggestions` (lines 36-42): render the window, count its
strokes, and keep only the engine's outlines that are strictly shorter. -/
def get_suggestions (env : Env) (translations : List Translation) :
    List (List String) :=
  let stroke_count := (translations.map (fun t => t.rtfcre.length)).sum
  ((env.get_suggestions (env.retroformat translations)).flatMap
      Suggestion.steno_list).filter
    (fun outline => outline.length < stroke_count)

/-- The backward scan of lines 211-226.  The first argument is the part of
`reversed(translations)` still to visit (newest first); `buffer` is the
Python list (in append order, so newest first); `deq` is the deque (front
first, so oldest first).  `deque.extendleft(buffer)` prepends the reversed
buffer.  Returns the list of emitted lookups in emission order. -/
def suggestionTiers (env : Env) :
    List Translation → List Translation → List Translation →
    List (List (List String))
  | [], buffer, deq =>
      if buffer.isEmpty then []
      else [get_suggestions env (buffer.reverse ++ deq)]
  | t :: rest, buffer, deq =>
      if is_fingerspelling t then
        suggestionTiers env rest (buffer ++ [t]) deq
      else
        (if buffer.isEmpty then []
         else [get_suggestions env (buffer.reverse ++ deq)]) ++
        (if is_whitespace t then []
         else [get_suggestions env (t :: (buffer.reverse ++ deq))]) ++
        suggestionTiers env rest [] (t :: (buffer.reverse ++ deq))

/-- The rendering of lines 228-230: number the tiers from 1 in emission
order, drop empty tiers, prefix tier `i` with `i` markers, join each tier's
outlines (chords joined by `/`, outlines by spaces), join tiers by spaces. -/
def renderSuggestions (tiers : List (List (List String))) : String :=
  " ".intercalate ((List.enumFrom 1 tiers).filterMap
    (fun p =>
      if p.2.isEmpty then none
      else some (String.mk (List.replicate p.1 '>') ++
        " ".intercalate (p.2.map (fun outline => "/".intercalate outline)))))

/-- The suggestion string of lines 207-230 for a non-empty snapshot: empty
when the newest entry is whitespace-only, otherwise the rendered scan of the
reversed snapshot.  (The `getLast? = none` branch is unreachable at the call
site, which is inside the non-empty branch of `on_stroked`.) -/
def hintString (env : Env) (translations : List Translation) : String :=
  match translations.getLast? with
  | none => ""
  | some last =>
      if is_whitespace last then ""
      else renderSuggestions (suggestionTiers env translations.reverse [] [])

/-- The bar width of line 147, before rendering: `min(int(seconds / unit),
max_width)` as an integer (negative when the clock ran backwards, exactly as
in Python). -/
def barWidthZ (seconds unit : ℚ) (maxW : Nat) : ℤ :=
  min (ratTrunc (seconds / unit)) (maxW : ℤ)

/-- The bar of line 148: `('+' * width).rjust(max_width)` (a negative width
yields no markers, as in Python). -/
def barString (seconds unit : ℚ) (maxW : Nat) : String :=
  rjust maxW (String.mk (List.replicate (barWidthZ seconds unit maxW).toNat '+'))

/-- The expanded key set of lines 153-159: a numeric alias contributes its
letter key and the shared number key; any other key contributes itself. -/
def expandedKeys (env : Env) (ks : List String) : List String :=
  ks.flatMap (fun k =>
    match env.numbers k with
    | some letter => [letter, env.number_key]
    | none => [k])

/-- The chord layout of line 160: each slot of `plover.system.KEYS` prints
its dash-stripped label when present in the expanded set, else a space. -/
def stenoString (env : Env) (stroke : Stroke) : String :=
  String.join (env.keys.map (fun key =>
    if key ∈ expandedKeys env stroke.steno_keys then stripDash key else " "))

/-- The condition of lines 135-138 deciding whether the deferred hint is
suppressed: the snapshot is empty, or the newest entry is fingerspelling,
or the stroke is a correction, or the newest entry replaced prior entries. -/
def turningPoint (stroke : Stroke) (translations : List Translation) : Bool :=
  match translations.getLast? with
  | none => true
  | some last =>
      is_fingerspelling last || stroke.is_correction || last.replaced

/-- The branch of lines 166-232: output text, suggestion string, and the new
fingerspelling flag.  A correction stroke or an empty snapshot yields
`("*", "", false)`; otherwise the output is the star marker (when the newest
entry took more than one stroke) followed by the style-dependent text with
whitespace made visible, the suggestion string is `hintString`, and the flag
is `is_fingerspelling` of the newest entry. -/
def eventFields (env : Env) (stroke : Stroke) (translations : List Translation) :
    String × String × Bool :=
  match translations.getLast? with
  | none => ("*", "", false)
  | some last =>
      if stroke.is_correction then ("*", "", false)
      else
        ((if 1 < last.strokes then "*" else "") ++
            showWhitespace
              (match env.output_style with
               | OutputStyle.translation => env.retroformat [last]
               | OutputStyle.definition => last.english.getD "/"),
         hintString env translations,
         is_fingerspelling last)

/-- `TapeyTape.on_stroked` (lines 89-246).  In order: resolve a pending
deferral (writing the previous right segment, with the hint suppressed when
`turningPoint` holds), compute the bar from the elapsed time, compute the
chord layout, branch on the event kind, assemble the new field map, write
the left segment, and write the right segment immediately unless the newest
entry is fingerspelling. -/
def on_stroked (env : Env) (st : TTState) (now : ℚ) (stroke : Stroke)
    (translations : List Translation) : TTState :=
  let itemsPrev : Items :=
    if turningPoint stroke translations then { st.items with h := "" }
    else st.items
  let file₁ : List String :=
    if st.was_fingerspelling then
      st.file ++ [rstrip (expand env.right_format itemsPrev), "\n"]
    else st.file
  let seconds : ℚ :=
    match st.last_stroke_time with
    | none => 0
    | some t₀ => now - t₀
  let fields := eventFields env stroke translations
  let items : Items :=
    { b := barString seconds env.bar_time_unit env.bar_max_width
      s := stenoString env stroke
      t := fields.1
      h := fields.2.1 }
  let file₂ := file₁ ++ [expand env.left_format items]
  let file₃ :=
    if fields.2.2 then file₂
    else file₂ ++ [rstrip (expand env.right_format items), "\n"]
  { last_stroke_time := some now
    was_fingerspelling := fields.2.2
    items := items
    file := file₃ }

/-- `TapeyTape.stop` (lines 80-87): flush the withheld right segment (with a
trailing line break) when a deferral is pending; hook disconnection and
closing do not change the file contents. -/
def stop (env : Env) (st : TTState) : TTState :=
  if st.was_fingerspelling then
    { st with file := st.file ++ [rstrip (expand env.right_format st.items), "\n"] }
  else st

/-! ### Configuration loading (`start`, lines 44-71) -/

/-- A parsed JSON value, as produced by `json.load` (objects are finite
maps; a duplicate key keeps only its last value, so fields are unique). -/
inductive JValue where
  | null
  | bool (b : Bool)
  | num (q : ℚ)
  | str (s : String)
  | arr (elems : List JValue)
  | obj (fields : List (String × JValue))

/-- The Python exceptions that can arise while `start` reads the config:
`KeyError` and `ValueError` are caught at lines 56 and 60; a
`TypeError` (e.g. `float(None)`, or subscripting a non-dict) and a
`json.JSONDecodeError` (malformed file contents) are not caught. -/
inductive PyErr where
  | keyError
  | valueError
  | typeError
  | jsonDecodeError
deriving DecidableEq, Repr

/-- The state of `tapey_tape.json` on disk: absent (caught at line 50),
present but not valid JSON (`json.load` raises), or parsed to a value. -/
inductive ConfigFile where
  | missing
  | malformed
  | valid (j : JValue)

/-- Digits-only numeral (helper for the string cases of `float` / `int`). -/
def parseDigits : List Char → Option Nat
  | [] => none
  | l =>
      if l.all Char.isDigit then
        some (l.foldl (fun acc c => 10 * acc + (c.toNat - '0'.toNat)) 0)
      else none

/-- Simplified model of Python `float(s)` on a string: an optional sign
followed by a decimal numeral with an optional fractional part parses;
any other string raises `ValueError`.  (Python also accepts exponents,
infinities and surrounding whitespace; the development relies only on
plain decimals succeeding and on non-numeric strings failing.) -/
def parseDecimal (s : String) : Option ℚ :=
  let body := if s.startsWith "-" || s.startsWith "+" then s.drop 1 else s
  let sign : ℚ := if s.startsWith "-" then -1 else 1
  match body.splitOn "." with
  | [intPart] => (parseDigits intPart.toList).map (fun n => sign * n)
  | [intPart, fracPart] =>
      match parseDigits intPart.toList, parseDigits fracPart.toList with
      | some n, some f =>
          some (sign * ((n : ℚ) + (f : ℚ) / ((10 : ℚ) ^ fracPart.length)))
      | _, _ => none
  | _ => none

/-- Model of Python `int(s)` on a string: an optional sign followed by a
decimal numeral parses; any other string raises `ValueError`. -/
def parseWholeNumber (s : String) : Option ℤ :=
  let body := if s.startsWith "-" || s.startsWith "+" then s.drop 1 else s
  (parseDigits body.toList).map (fun n => if s.startsWith "-" then -(n : ℤ) else n)

/-- Python `float(v)` on a JSON value: numbers pass through, booleans are
0/1, strings parse or raise `ValueError`, anything else raises
`TypeError`. -/
def pyFloat : JValue → Except PyErr ℚ
  | JValue.num q => Except.ok q
  | JValue.bool b => Except.ok (if b then 1 else 0)
  | JValue.str s =>
      match parseDecimal s with
      | some q => Except.ok q
      | none => Except.error PyErr.valueError
  | _ => Except.error PyErr.typeError

/-- Python `int(v)` on a JSON value: numbers truncate toward zero, booleans
are 0/1, strings parse as whole numbers or raise `ValueError`, anything
else raises `TypeError`. -/
def pyInt : JValue → Except PyErr ℤ
  | JValue.num q => Except.ok (ratTrunc q)
  | JValue.bool b => Except.ok (if b then 1 else 0)
  | JValue.str s =>
      match parseWholeNumber s with
      | some n => Except.ok n
      | none => Except.error PyErr.valueError
  | _ => Except.error PyErr.typeError

/-- Python `config['key']`: a `KeyError` on a dict without the key, the
value on a dict with it, and a `TypeError` when `config` is not a dict. -/
def subscript (config : JValue) (k : String) : Except PyErr JValue :=
  match config with
  | JValue.obj fields =>
      match fields.lookup k with
      | some v => Except.ok v
      | none => Except.error PyErr.keyError
  | _ => Except.error PyErr.typeError

/-- Python `config.get('key')`: `None` or the value on a dict; an uncaught
error (`AttributeError`, modelled as `typeError`) otherwise.  (With a
non-dict top level `start` has already raised at line 55.) -/
def dictGet (config : JValue) (k : String) : Except PyErr (Option JValue) :=
  match config with
  | JValue.obj fields => Except.ok (fields.lookup k)
  | _ => Except.error PyErr.typeError

/-- A `try ... except (KeyError, ValueError): default` block (lines 53-61):
those two exceptions select the default; any other error propagates. -/
def catchDefault (x : Except PyErr α) (dflt : α) : Except PyErr α :=
  match x with
  | Except.ok v => Except.ok v
  | Except.error PyErr.keyError => Except.ok dflt
  | Except.error PyErr.valueError => Except.ok dflt
  | Except.error e => Except.error e

/-- Lines 46-51: a missing file yields the empty dict; anything else that
`json.load` cannot parse raises an uncaught `JSONDecodeError`. -/
def loadConfig : ConfigFile → Except PyErr JValue
  | ConfigFile.missing => Except.ok (JValue.obj [])
  | ConfigFile.malformed => Except.error PyErr.jsonDecodeError
  | ConfigFile.valid j => Except.ok j

/-- Lines 53-57: `max(float(config['bar_time_unit']), 0.01)`, with 0.2 on
`KeyError` or `ValueError`. -/
def configBarTimeUnit (config : JValue) : Except PyErr ℚ :=
  catchDefault
    (match subscript config "bar_time_unit" with
     | Except.error e => Except.error e
     | Except.ok v =>
         match pyFloat v with
         | Except.error e => Except.error e
         | Except.ok q => Except.ok (max q ((1 : ℚ) / 100)))
    ((2 : ℚ) / 10)

/-- Lines 58-61: `min(max(int(config['bar_max_width']), 0), 100)`, with 5 on
`KeyError` or `ValueError`. -/
def configBarMaxWidth (config : JValue) : Except PyErr ℤ :=
  catchDefault
    (match subscript config "bar_max_width" with
     | Except.error e => Except.error e
     | Except.ok v =>
         match pyInt v with
         | Except.error e => Except.error e
         | Except.ok n => Except.ok (min (max n 0) 100))
    5

/-- `%h` search underlying line 70's `re.split(r'(\s*%h)', fmt, maxsplit=1)`:
locate the first occurrence of the two-character sequence `%h`, returning
the characters before and after it.  (The regex `\s*%h` matches leftmost,
and greedily takes the maximal whitespace run ending at that first `%h`;
`splitFormat` below moves that run out of the left part.) -/
def findHint : List Char → Option (List Char × List Char)
  | [] => none
  | c :: rest =>
      if c = '%' ∧ rest.head? = some 'h' then some ([], rest.tail)
      else (findHint rest).map (fun p => (c :: p.1, p.2))

/-- Whether `%h` occurs in the character list. -/
def hasHint (l : List Char) : Bool :=
  (findHint l).isSome

/-- Lines 70-71: split the template at the first `%h` together with the
maximal run of whitespace immediately before it.  Without a match the whole
template is the left part and the right part is empty (`re.split` returns a
single piece, and `''.join` of no pieces is empty). -/
def splitFormat (fmt : String) : String × String :=
  match findHint fmt.toList with
  | none => (fmt, "")
  | some (pre, post) =>
      (String.mk ((pre.reverse.dropWhile pySpace).reverse),
       String.mk ((pre.reverse.takeWhile pySpace).reverse ++ '%' :: 'h' :: post))

/-- The configuration computed by `start` (lines 44-71): the four documented
fields, with the format template already split into its two halves. -/
structure Config where
  bar_time_unit : ℚ
  bar_max_width : Nat
  output_style : OutputStyle
  left_format : String
  right_format : String
deriving DecidableEq, Repr

/-- `TapeyTape.start` (lines 44-71), up to the hook connection and the log
file opening (which do not affect the computed configuration).  Errors
other than the caught `FileNotFoundError` / `KeyError` / `ValueError`
propagate and abort startup. -/
def start (cf : ConfigFile) : Except PyErr Config :=
  match loadConfig cf with
  | Except.error e => Except.error e
  | Except.ok config =>
      match configBarTimeUnit config with
      | Except.error e => Except.error e
      | Except.ok btu =>
          match configBarMaxWidth config with
          | Except.error e => Except.error e
          | Except.ok bmw =>
              match dictGet config "output_style" with
              | Except.error e => Except.error e
              | Except.ok styleV =>
                  match dictGet config "output_format" with
                  | Except.error e => Except.error e
                  | Except.ok fmtV =>
                      let style :=
                        match styleV with
                        | some (JValue.str s) =>
                            if s = "translation" then OutputStyle.translation
                            else OutputStyle.definition
                        | _ => OutputStyle.definition
                      let output_format :=
                        match fmtV with
                        | some (JValue.str s) => s
                        | _ => "%b |%s| %t  %h"
                      Except.ok
                        { bar_time_unit := btu
                          bar_max_width := bmw.toNat
                          output_style := style
                          left_format := (splitFormat output_format).1
                          right_format := (splitFormat output_format).2 }

/-- A config field value on which `float` / `int` cannot raise the uncaught
`TypeError`: absent, or a number, boolean, or string.  (`null`, arrays and
objects make `float`/`int` raise `TypeError`, which line 56/60 does not
catch.) -/
def scalarField : Option JValue → Bool
  | none => true
  | some JValue.null => false
  | some (JValue.arr _) => false
  | some (JValue.obj _) => false
  | some _ => true

/-! ### Spec-side description of the backward scan (spec section 4.4)

These two definitions follow the specification's words, to be compared
with the source-side `suggestionTiers` and `renderSuggestions`. -/

/-- The backward scan as the spec describes it: visit the snapshot newest
to oldest; a fingerspelling entry goes onto the side buffer (kept here in
original, oldest-first order); a non-fingerspelling entry first splices a
non-empty buffer in original order onto the front of the window and emits
one lookup, is then pushed onto the front of the window, and emits a lookup
when it is not whitespace-only; a buffer left over at the end is spliced
and yields one final lookup. -/
def specScanTiers (env : Env) :
    List Translation → List Translation → List Translation →
    List (List (List String))
  | [], run, window =>
      if run.isEmpty then []
      else [get_suggestions env (run ++ window)]
  | t :: older, run, window =>
      if is_fingerspelling t then
        specScanTiers env older (t :: run) window
      else
        (if run.isEmpty then []
         else [get_suggestions env (run ++ window)]) ++
        (if is_whitespace t then []
         else [get_suggestions env (t :: (run ++ window))]) ++
        specScanTiers env older [] (t :: (run ++ window))

/-- The rendering as the spec describes it: tiers numbered from 1 in
emission order, tiers with no results omitted entirely, tier `i` prefixed
by `i` marker characters, each result's chords joined by the separator,
results joined by spaces, and non-empty tiers joined by single spaces. -/
def specRenderTiers (tiers : List (List (List String))) : String :=
  " ".intercalate (((List.enumFrom 1 tiers).filter
      (fun p => !p.2.isEmpty)).map
    (fun p => String.mk (List.replicate p.1 '>') ++
      " ".intercalate (p.2.map (fun outline => "/".intercalate outline))))

/-! ### A concrete fingerspelling scenario

A run `&f &o &o` followed by a separate word `foo`, against a small
concrete environment: the left template is `%t|`, the right template is
`%h`, and the engine suggests, for any rendered text, the single
one-chord outline whose chord is that text. -/

/-- A glue (fingerspelling) action with the given text. -/
def aGlue (s : String) : Action := { text := some s, glue := true }

/-- A plain action with the given text. -/
def aPlain (s : String) : Action := { text := some s, glue := false }

/-- The fingerspelt letter `f`. -/
def tF : Translation :=
  { rtfcre := ["TP*"], formatting := [aGlue "f"], english := some "f"
    strokes := 1, replaced := false }

/-- A fingerspelt letter `o`. -/
def tO : Translation :=
  { rtfcre := ["O*"], formatting := [aGlue "o"], english := some "o"
    strokes := 1, replaced := false }

/-- The separate word `foo` typed after the run (not fingerspelling, not a
replacement). -/
def tW : Translation :=
  { rtfcre := ["TPAO"], formatting := [aPlain "foo"], english := some "foo"
    strokes := 1, replaced := false }

/-- A plain stroke (no keys recorded, not a correction). -/
def stroke0 : Stroke := { steno_keys := [], is_correction := false }

/-- A correction (undo) stroke. -/
def strokeC : Stroke := { steno_keys := [], is_correction := true }

/-- The concrete scenario environment. -/
def envS : Env :=
  { retroformat := fun l =>
      String.join (l.map (fun t => String.join (t.formatting.filterMap Action.text)))
    get_suggestions := fun text => [{ steno_list := [[text]] }]
    output_style := OutputStyle.definition
    left_format := "%t|"
    right_format := "%h"
    bar_time_unit := (2 : ℚ) / 10
    bar_max_width := 0
    numbers := fun _ => none
    number_key := "#"
    keys := [] }

/-- The freshly started state: `last_stroke_time` unset, the flag `False`
(line 33-34); the field map is unread until first set, so its initial
value is immaterial and taken empty. -/
def st0 : TTState :=
  { last_stroke_time := none, was_fingerspelling := false
    items := { b := "", s := "", t := "", h := "" }, file := [] }

/-- State after the `&f` event. -/
def st1 : TTState := on_stroked envS st0 0 stroke0 [tF]

/-- State after the first `&o` event. -/
def st2 : TTState := on_stroked envS st1 0 stroke0 [tF, tO]

/-- State after the second `&o` event. -/
def st3 : TTState := on_stroked envS st2 0 stroke0 [tF, tO, tO]

/-- State after the `foo` event that ends the run. -/
def st4 : TTState := on_stroked envS st3 0 stroke0 [tF, tO, tO, tW]

/-- Whether `needle` occurs as a contiguous subsequence of the second list
(used to state that a string never appears in the log). -/
def containsSeq (needle : List Char) : List Char → Bool
  | [] => needle.isEmpty
  | c :: rest => needle.isPrefixOf (c :: rest) || containsSeq needle rest

/-! ### Helper lemmas -/

/-- `rstrip` is idempotent: a stripped string has no trailing whitespace. -/
theorem rstrip_idem (s : String) : rstrip (rstrip s) = rstrip s := by
  simp [rstrip, List.dropWhile_idempotent]

/-- How `stop` changes the file. -/
theorem stop_file (env : Env) (st : TTState) :
    (stop env st).file =
      if st.was_fingerspelling then
        st.file ++ [rstrip (expand env.right_format st.items), "\n"]
      else st.file := by
  unfold stop
  split <;> rfl

/-- The new fingerspelling flag and the new field map of `on_stroked`. -/
theorem on_stroked_flag_items (env : Env) (st : TTState) (now : ℚ)
    (stroke : Stroke) (ts : List Translation) :
    (on_stroked env st now stroke ts).was_fingerspelling =
      (eventFields env stroke ts).2.2 ∧
    (on_stroked env st now stroke ts).items.t = (eventFields env stroke ts).1 ∧
    (on_stroked env st now stroke ts).items.h = (eventFields env stroke ts).2.1 := by
  refine ⟨rfl, ?_, ?_⟩ <;> (unfold on_stroked; rfl)

/-- With a pending deferral, `on_stroked` writes the previous right segment
(hint suppressed when `turningPoint` holds) and a line break first, then the
left segment, then (unless deferring again) its own right segment. -/
theorem resolutionWrite (env : Env) (st : TTState) (now : ℚ) (stroke : Stroke)
    (ts : List Translation) (hfs : st.was_fingerspelling = true) :
    (on_stroked env st now stroke ts).file =
      st.file ++
        [rstrip (expand env.right_format
            (if turningPoint stroke ts then { st.items with h := "" } else st.items)),
         "\n",
         expand env.left_format (on_stroked env st now stroke ts).items] ++
        (if (on_stroked env st now stroke ts).was_fingerspelling then []
         else [rstrip (expand env.right_format (on_stroked env st now stroke ts).items),
               "\n"]) := by
  unfold on_stroked
  cases hb : (eventFields env stroke ts).2.2 <;>
    simp [hfs, hb, List.append_assoc]

/-- Without a pending deferral, `on_stroked` writes only the left segment
and (unless deferring) its own right segment. -/
theorem noResolutionWrite (env : Env) (st : TTState) (now : ℚ) (stroke : Stroke)
    (ts : List Translation) (hfs : st.was_fingerspelling = false) :
    (on_stroked env st now stroke ts).file =
      st.file ++
        [expand env.left_format (on_stroked env st now stroke ts).items] ++
        (if (on_stroked env st now stroke ts).was_fingerspelling then []
         else [rstrip (expand env.right_format (on_stroked env st now stroke ts).items),
               "\n"]) := by
  unfold on_stroked
  cases hb : (eventFields env stroke ts).2.2 <;>
    simp [hfs, hb, List.append_assoc]

/-- With a non-empty snapshot and no correction, the new fingerspelling
flag is `is_fingerspelling` of the newest entry. -/
theorem eventFields_flag (env : Env) (stroke : Stroke) (ts : List Translation)
    (last : Translation) (hl : ts.getLast? = some last)
    (hc : stroke.is_correction = false) :
    (eventFields env stroke ts).2.2 = is_fingerspelling last := by
  unfold eventFields
  rw [hl]
  simp [hc]

/-- Evaluation of `turningPoint` when the newest entry is known. -/
theorem turningPoint_of_last (stroke : Stroke) (ts : List Translation)
    (last : Translation) (hl : ts.getLast? = some last) :
    turningPoint stroke ts =
      (is_fingerspelling last || stroke.is_correction || last.replaced) := by
  unfold turningPoint
  rw [hl]

/-- A `filterMap` whose function is an if-then-else between `none` and
`some` is a `filter` followed by a `map`. -/
theorem filterMap_ite_eq_filter_map {α β : Type} (f : α → β) (p : α → Bool) :
    ∀ l : List α,
      l.filterMap (fun a => if p a then none else some (f a)) =
        (l.filter (fun a => !p a)).map f := by
  intro l
  induction l with
  | nil => rfl
  | cons a l ih => cases h : p a <;> simp [h, ih]

/-- The source rendering equals the spec-side rendering. -/
theorem renderSuggestions_eq_spec (tiers : List (List (List String))) :
    renderSuggestions tiers = specRenderTiers tiers := by
  unfold renderSuggestions specRenderTiers
  rw [filterMap_ite_eq_filter_map]

/-- The source scan (Python-list buffer, spliced by `extendleft`) equals the
spec-side scan (oldest-first run buffer, spliced by plain append): the
run buffer is the reverse of the Python buffer throughout. -/
theorem specScanTiers_eq (env : Env) :
    ∀ l buffer window : List Translation,
      specScanTiers env l buffer.reverse window =
        suggestionTiers env l buffer window := by
  intro l
  induction l with
  | nil =>
      intro buffer window
      unfold specScanTiers suggestionTiers
      cases buffer <;> simp
  | cons t rest ih =>
      intro buffer window
      unfold specScanTiers suggestionTiers
      cases hf : is_fingerspelling t
      · have hih : specScanTiers env rest [] (t :: (buffer.reverse ++ window)) =
            suggestionTiers env rest [] (t :: (buffer.reverse ++ window)) :=
          ih [] (t :: (buffer.reverse ++ window))
        simp only [Bool.false_eq_true, if_false]
        rw [hih]
        cases buffer <;> first | rfl | simp
      · have h : (t :: buffer.reverse) = (buffer ++ [t]).reverse := by simp
        simp only [hf, if_true]
        rw [h, ih]

/-- Every tier emitted by the scan is the suggestion lookup of some window. -/
theorem tier_is_lookup (env : Env) :
    ∀ (l buffer deq : List Translation) (tier : List (List String)),
      tier ∈ suggestionTiers env l buffer deq →
      ∃ w, tier = get_suggestions env w := by
  intro l
  induction l with
  | nil =>
      intro buffer deq tier h
      unfold suggestionTiers at h
      split at h
      · simp at h
      · simp at h
        exact ⟨buffer.reverse ++ deq, h⟩
  | cons t rest ih =>
      intro buffer deq tier h
      unfold suggestionTiers at h
      split at h
      · exact ih (buffer ++ [t]) deq tier h
      · simp only [List.mem_append] at h
        rcases h with (h | h) | h
        · split at h
          · simp at h
          · simp at h
            exact ⟨buffer.reverse ++ deq, h⟩
        · split at h
          · simp at h
          · simp at h
            exact ⟨t :: (buffer.reverse ++ deq), h⟩
        · exact ih [] (t :: (buffer.reverse ++ deq)) tier h

/-- When `findHint` fails, `%h` does not occur in the list. -/
theorem findHint_none_not_occurs :
    ∀ l : List Char, findHint l = none →
      ∀ pre post : List Char, l ≠ pre ++ '%' :: 'h' :: post := by
  intro l
  induction l with
  | nil =>
      intro _ pre post h
      exact absurd h (by simp)
  | cons c rest ih =>
      intro hn pre post heq
      unfold findHint at hn
      by_cases hc : c = '%' ∧ rest.head? = some 'h'
      · rw [if_pos hc] at hn
        exact absurd hn (by simp)
      · rw [if_neg hc] at hn
        have hrest : findHint rest = none := by
          cases hfr : findHint rest
          · rfl
          · rw [hfr] at hn
            simp at hn
        cases pre with
        | nil =>
            simp only [List.nil_append, List.cons.injEq] at heq
            exact hc ⟨heq.1, by rw [heq.2]; rfl⟩
        | cons d pre' =>
            simp only [List.cons_append, List.cons.injEq] at heq
            exact ih hrest pre' post heq.2

/-- When `findHint` succeeds it returns the decomposition around the first
occurrence of `%h`: the part before contains no `%h`. -/
theorem findHint_some_decomp :
    ∀ l pre post : List Char, findHint l = some (pre, post) →
      l = pre ++ '%' :: 'h' :: post ∧ findHint pre = none := by
  intro l
  induction l with
  | nil =>
      intro pre post h
      simp [findHint] at h
  | cons c rest ih =>
      intro pre post h
      unfold findHint at h
      by_cases hc : c = '%' ∧ rest.head? = some 'h'
      · rw [if_pos hc] at h
        simp only [Option.some.injEq, Prod.mk.injEq] at h
        obtain ⟨hpre, hpost⟩ := h
        subst hpre
        subst hpost
        obtain ⟨hc1, hc2⟩ := hc
        subst hc1
        cases rest with
        | nil => simp at hc2
        | cons a t =>
            simp only [List.head?_cons, Option.some.injEq] at hc2
            subst hc2
            exact ⟨rfl, rfl⟩
      · rw [if_neg hc] at h
        cases hfr : findHint rest with
        | none =>
            rw [hfr] at h
            simp at h
        | some p =>
            rw [hfr] at h
            simp only [Option.map_some', Option.some.injEq, Prod.mk.injEq] at h
            obtain ⟨hpre, hpost⟩ := h
            obtain ⟨hdec, hnone⟩ := ih p.1 p.2 (by rw [hfr])
            subst hpost
            constructor
            · rw [← hpre, hdec]
              rfl
            · rw [← hpre]
              unfold findHint
              rw [if_neg ?_, hnone]
              · rfl
              · intro ⟨hcp, hh⟩
                apply hc
                refine ⟨hcp, ?_⟩
                cases p1 : p.1 with
                | nil =>
                    rw [p1] at hh
                    simp at hh
                | cons a t =>
                    rw [p1] at hh
                    simp only [List.head?_cons, Option.some.injEq] at hh
                    rw [hdec, p1, hh]
                    rfl

/-- The head of `dropWhile p l` does not satisfy `p`. -/
theorem head?_dropWhile_false {α : Type} (p : α → Bool) :
    ∀ (l : List α) (a : α), (l.dropWhile p).head? = some a → p a = false := by
  intro l
  induction l with
  | nil =>
      intro a h
      simp [List.dropWhile] at h
  | cons x xs ih =>
      intro a h
      rw [List.dropWhile_cons] at h
      by_cases hx : p x
      · rw [if_pos hx] at h
        exact ih a h
      · rw [if_neg hx] at h
        simp only [List.head?_cons, Option.some.injEq] at h
        subst h
        exact Bool.not_eq_true _ ▸ eq_false_of_ne_true hx

/-- Appending `String.mk` values concatenates their characters. -/
theorem mk_append (a b : List Char) : String.mk a ++ String.mk b = String.mk (a ++ b) :=
  rfl

/-! ### The claims -/

/-- C4: for a snapshot whose newest entry is not whitespace-only, the hint
computed by `on_stroked` is exactly the spec-described backward scan — a
newest-to-oldest walk buffering contiguous fingerspelling runs, splicing a
buffered run in original order onto the front of the window when a
non-fingerspelling entry breaks it (one lookup), a lookup after pushing each
non-whitespace non-fingerspelling entry, one final lookup for an oldest
fingerspelling run — rendered with tiers numbered from 1 in emission order,
empty tiers omitted, tier `i` prefixed by `i` markers, and non-empty tiers
joined by single spaces. -/
theorem c4_backward_scan (env : Env) (ts : List Translation) (last : Translation)
    (h1 : ts.getLast? = some last) (h2 : is_whitespace last = false) :
    hintString env ts = specRenderTiers (specScanTiers env ts.reverse [] []) := by
  unfold hintString
  rw [h1]
  dsimp only
  rw [h2]
  simp only [Bool.false_eq_true, if_false]
  rw [renderSuggestions_eq_spec]
  exact congrArg specRenderTiers (specScanTiers_eq env ts.reverse [] []).symm

/-- Witness for C4 at the two-entry snapshot `[tF, tO]`. -/
theorem c4_witness :
    hintString envS [tF, tO] =
      specRenderTiers (specScanTiers envS [tF, tO].reverse [] []) :=
  c4_backward_scan envS [tF, tO] tO (by decide) (by decide)

/-- C6: every outline in an emitted tier comes from the lookup of some
window and has strictly fewer chords than that window's total stroke count
(the sum over the window's entries of their chord-code counts); outlines of
equal or greater count were filtered out. -/
theorem c6_strictly_shorter (env : Env) (l buffer deq : List Translation)
    (tier : List (List String)) (o : List String)
    (h1 : tier ∈ suggestionTiers env l buffer deq) (h2 : o ∈ tier) :
    ∃ w, tier = get_suggestions env w ∧
      o.length < (w.map (fun t => t.rtfcre.length)).sum := by
  obtain ⟨w, rfl⟩ := tier_is_lookup env l buffer deq tier h1
  refine ⟨w, rfl, ?_⟩
  unfold get_suggestions at h2
  simp only [List.mem_filter] at h2
  exact of_decide_eq_true h2.2

/-- Witness for C6: the tier `[["fo"]]` emitted for the snapshot `[tF, tO]`
contains a one-chord outline while the window has two strokes. -/
theorem c6_witness :
    ∃ w, [["fo"]] = get_suggestions envS w ∧
      (["fo"] : List String).length < (w.map (fun t => t.rtfcre.length)).sum :=
  c6_strictly_shorter envS [tO, tF] [] [] [["fo"]] ["fo"] (by decide) (by decide)

/-- C7: the template is split at the first occurrence of `%h` together with
the maximal run of whitespace immediately preceding it — the left segment
is everything before that run (and does not end in whitespace), the right
segment is the run, `%h`, and everything after, and no `%h` occurs before
the split point; a template with no `%h` becomes entirely the left segment
with an empty right segment, so hints are never shown. -/
theorem c7_template_split (fmt : String) :
    ((∀ pre post : List Char, fmt.toList ≠ pre ++ '%' :: 'h' :: post) →
       splitFormat fmt = (fmt, "")) ∧
    (∀ pre post : List Char, fmt.toList = pre ++ '%' :: 'h' :: post →
       ∃ left ws tail,
         splitFormat fmt = (String.mk left, String.mk (ws ++ '%' :: 'h' :: tail)) ∧
         fmt.toList = left ++ (ws ++ '%' :: 'h' :: tail) ∧
         (∀ c ∈ ws, pySpace c = true) ∧
         (∀ c, left.getLast? = some c → pySpace c = false) ∧
         (∀ pre' post' : List Char, left ++ ws ≠ pre' ++ '%' :: 'h' :: post')) := by
  constructor
  · intro h
    unfold splitFormat
    cases hf : findHint fmt.toList with
    | none => rfl
    | some p =>
        obtain ⟨hdec, _⟩ := findHint_some_decomp fmt.toList p.1 p.2 (by rw [hf])
        exact absurd hdec (h p.1 p.2)
  · intro pre post heq
    cases hf : findHint fmt.toList with
    | none => exact absurd heq (findHint_none_not_occurs fmt.toList hf pre post)
    | some p =>
        obtain ⟨hdec, hnone⟩ := findHint_some_decomp fmt.toList p.1 p.2 (by rw [hf])
        have hsplit : p.1 = (p.1.reverse.dropWhile pySpace).reverse ++
            (p.1.reverse.takeWhile pySpace).reverse := by
          conv_lhs => rw [← List.reverse_reverse p.1,
            ← List.takeWhile_append_dropWhile (p := pySpace) (l := p.1.reverse)]
          rw [List.reverse_append]
        refine ⟨(p.1.reverse.dropWhile pySpace).reverse,
          (p.1.reverse.takeWhile pySpace).reverse, p.2, ?_, ?_, ?_, ?_, ?_⟩
        · unfold splitFormat
          rw [hf]
        · rw [hdec]
          conv_lhs => rw [hsplit]
          simp [List.append_assoc]
        · intro c hc
          rw [List.mem_reverse] at hc
          exact List.mem_takeWhile_imp hc
        · intro c hcl
          rw [List.getLast?_reverse] at hcl
          exact head?_dropWhile_false pySpace _ c hcl
        · intro pre' post' h'
          rw [← hsplit] at h'
          exact findHint_none_not_occurs p.1 hnone pre' post' h'

/-- Witness for C7 at the default template. -/
theorem c7_witness :
    ∃ left ws tail,
      splitFormat "%b |%s| %t  %h" =
        (String.mk left, String.mk (ws ++ '%' :: 'h' :: tail)) ∧
      "%b |%s| %t  %h".toList = left ++ (ws ++ '%' :: 'h' :: tail) ∧
      (∀ c ∈ ws, pySpace c = true) ∧
      (∀ c, left.getLast? = some c → pySpace c = false) ∧
      (∀ pre' post' : List Char, left ++ ws ≠ pre' ++ '%' :: 'h' :: post') :=
  (c7_template_split "%b |%s| %t  %h").2 "%b |%s| %t  ".toList [] (by decide)

/-- C8: for non-negative elapsed time and a positive time unit the bar width
is `min(floor(elapsed / unit), max_width)`, it is monotone in the elapsed
time, it never exceeds `max_width`, and the rendered bar is that many
markers right-justified in a field of exactly `max_width` characters. -/
theorem c8_bar_width (s s' u : ℚ) (m : Nat)
    (hs : 0 ≤ s) (hu : 0 < u) (hss' : s ≤ s') :
    barWidthZ s u m = min ⌊s / u⌋ (m : ℤ) ∧
    barWidthZ s u m ≤ barWidthZ s' u m ∧
    barWidthZ s u m ≤ (m : ℤ) ∧
    (barString s u m).length = m ∧
    barString s u m =
      String.mk (List.replicate (m - (barWidthZ s u m).toNat) ' ' ++
        List.replicate (barWidthZ s u m).toNat '+') := by
  have hds : 0 ≤ s / u := div_nonneg hs hu.le
  have hds' : 0 ≤ s' / u := div_nonneg (hs.trans hss') hu.le
  have htr : ratTrunc (s / u) = ⌊s / u⌋ := if_pos hds
  have htr' : ratTrunc (s' / u) = ⌊s' / u⌋ := if_pos hds'
  have hle : (barWidthZ s u m).toNat ≤ m := by
    rw [← Int.toNat_ofNat m]
    exact Int.toNat_le_toNat (min_le_right _ _)
  have hbar : barString s u m =
      String.mk (List.replicate (m - (barWidthZ s u m).toNat) ' ' ++
        List.replicate (barWidthZ s u m).toNat '+') := by
    unfold barString rjust
    rw [← mk_append]
    congr 2
    simp [String.length]
  refine ⟨?_, ?_, min_le_right _ _, ?_, hbar⟩
  · unfold barWidthZ
    rw [htr]
  · unfold barWidthZ
    rw [htr, htr']
    exact min_le_min (Int.floor_le_floor (by gcongr)) le_rfl
  · rw [hbar]
    show (List.replicate (m - (barWidthZ s u m).toNat) ' ' ++
      List.replicate (barWidthZ s u m).toNat '+').length = m
    rw [List.length_append, List.length_replicate, List.length_replicate]
    omega

/-- Witness for C8 at zero elapsed time, unit 1, width 5. -/
theorem c8_witness :
    (0 : ℚ) ≤ 0 ∧ (0 : ℚ) < 1 ∧ (barString 0 1 5).length = 5 :=
  ⟨le_refl 0, one_pos,
    (c8_bar_width 0 1 1 5 (le_refl 0) one_pos (by norm_num)).2.2.2.1⟩

/-- The `bar_time_unit` stage succeeds on a scalar-or-absent field, yields a
value at least 0.01, and falls back to 0.2 when the field is absent. -/
theorem configBarTimeUnit_ok (fs : List (String × JValue))
    (h : scalarField (fs.lookup "bar_time_unit") = true) :
    ∃ q, configBarTimeUnit (JValue.obj fs) = Except.ok q ∧
      (1 : ℚ) / 100 ≤ q ∧
      (fs.lookup "bar_time_unit" = none → q = (2 : ℚ) / 10) := by
  cases hl : fs.lookup "bar_time_unit" with
  | none =>
      refine ⟨(2 : ℚ) / 10, ?_, by norm_num, fun _ => rfl⟩
      simp [configBarTimeUnit, subscript, catchDefault, hl]
  | some v =>
      rw [hl] at h
      cases v with
      | null => simp [scalarField] at h
      | arr a => simp [scalarField] at h
      | obj o => simp [scalarField] at h
      | bool b =>
          refine ⟨max (if b then 1 else 0) ((1 : ℚ) / 100), ?_, le_max_right _ _,
            fun hn => Option.noConfusion hn⟩
          simp [configBarTimeUnit, subscript, pyFloat, catchDefault, hl]
      | num q =>
          refine ⟨max q ((1 : ℚ) / 100), ?_, le_max_right _ _,
            fun hn => Option.noConfusion hn⟩
          simp [configBarTimeUnit, subscript, pyFloat, catchDefault, hl]
      | str s =>
          cases hp : parseDecimal s with
          | some q =>
              refine ⟨max q ((1 : ℚ) / 100), ?_, le_max_right _ _,
                fun hn => Option.noConfusion hn⟩
              simp [configBarTimeUnit, subscript, pyFloat, catchDefault, hl, hp]
          | none =>
              refine ⟨(2 : ℚ) / 10, ?_, by norm_num,
                fun hn => Option.noConfusion hn⟩
              simp [configBarTimeUnit, subscript, pyFloat, catchDefault, hl, hp]

/-- The `bar_max_width` stage succeeds on a scalar-or-absent field, yields a
value at most 100 (and at least 0 unless defaulted), and falls back to 5
when the field is absent. -/
theorem configBarMaxWidth_ok (fs : List (String × JValue))
    (h : scalarField (fs.lookup "bar_max_width") = true) :
    ∃ n : ℤ, configBarMaxWidth (JValue.obj fs) = Except.ok n ∧
      n ≤ 100 ∧
      (fs.lookup "bar_max_width" = none → n = 5) := by
  cases hl : fs.lookup "bar_max_width" with
  | none =>
      refine ⟨5, ?_, by norm_num, fun _ => rfl⟩
      simp [configBarMaxWidth, subscript, catchDefault, hl]
  | some v =>
      rw [hl] at h
      cases v with
      | null => simp [scalarField] at h
      | arr a => simp [scalarField] at h
      | obj o => simp [scalarField] at h
      | bool b =>
          refine ⟨min (max (if b then 1 else 0) 0) 100, ?_, min_le_right _ _,
            fun hn => Option.noConfusion hn⟩
          simp [configBarMaxWidth, subscript, pyInt, catchDefault, hl]
      | num q =>
          refine ⟨min (max (ratTrunc q) 0) 100, ?_, min_le_right _ _,
            fun hn => Option.noConfusion hn⟩
          simp [configBarMaxWidth, subscript, pyInt, catchDefault, hl]
      | str s =>
          cases hp : parseWholeNumber s with
          | some n =>
              refine ⟨min (max n 0) 100, ?_, min_le_right _ _,
                fun hn => Option.noConfusion hn⟩
              simp [configBarMaxWidth, subscript, pyInt, catchDefault, hl, hp]
          | none =>
              refine ⟨5, ?_, by norm_num,
                fun hn => Option.noConfusion hn⟩
              simp [configBarMaxWidth, subscript, pyInt, catchDefault, hl, hp]

/-- Counterexample to C5 as stated: startup DOES fail on some configuration
inputs — a file with malformed contents makes `json.load` raise an uncaught
`JSONDecodeError` (only `FileNotFoundError` is caught at line 50), and a
`null`-valued `bar_time_unit` makes `float(None)` raise an uncaught
`TypeError` (line 56 catches only `KeyError` and `ValueError`). -/
theorem c5_counterexample :
    start ConfigFile.malformed = Except.error PyErr.jsonDecodeError ∧
    start (ConfigFile.valid (JValue.obj [("bar_time_unit", JValue.null)])) =
      Except.error PyErr.typeError :=
  ⟨rfl, rfl⟩

/-- C5 (amended): startup never fails when the configuration file is
missing, or when it parses to a JSON object whose `bar_time_unit` and
`bar_max_width` fields (if present) are numbers, booleans, or strings; each
field then independently falls back to its documented default —
`bar_time_unit` 0.2 and floor-clamped to 0.01, `bar_max_width` 5 and
clamped to [0,100], `output_style` "definition" for any value other than
the string "translation", and the default template when `output_format` is
not a string.  (Malformed file contents, and `null`/array/object values in
the two numeric fields, raise uncaught errors and are excluded.) -/
theorem c5_config_fallback_amended (fs : List (String × JValue))
    (h1 : scalarField (fs.lookup "bar_time_unit") = true)
    (h2 : scalarField (fs.lookup "bar_max_width") = true) :
    start ConfigFile.missing =
      Except.ok { bar_time_unit := (2 : ℚ) / 10, bar_max_width := 5
                  output_style := OutputStyle.definition
                  left_format := "%b |%s| %t", right_format := "  %h" } ∧
    ∃ c : Config, start (ConfigFile.valid (JValue.obj fs)) = Except.ok c ∧
      (1 : ℚ) / 100 ≤ c.bar_time_unit ∧
      c.bar_max_width ≤ 100 ∧
      (fs.lookup "bar_time_unit" = none → c.bar_time_unit = (2 : ℚ) / 10) ∧
      (fs.lookup "bar_max_width" = none → c.bar_max_width = 5) ∧
      (∀ s, fs.lookup "output_style" = some (JValue.str s) → s ≠ "translation" →
         c.output_style = OutputStyle.definition) ∧
      (fs.lookup "output_style" = none → c.output_style = OutputStyle.definition) ∧
      ((∀ s, fs.lookup "output_format" ≠ some (JValue.str s)) →
         c.left_format = "%b |%s| %t" ∧ c.right_format = "  %h") := by
  obtain ⟨q, hq, hq1, hq2⟩ := configBarTimeUnit_ok fs h1
  obtain ⟨n, hn, hn1, hn2⟩ := configBarMaxWidth_ok fs h2
  refine ⟨rfl, ?_⟩
  refine ⟨{ bar_time_unit := q
            bar_max_width := n.toNat
            output_style :=
              match fs.lookup "output_style" with
              | some (JValue.str s) =>
                  if s = "translation" then OutputStyle.translation
                  else OutputStyle.definition
              | _ => OutputStyle.definition
            left_format :=
              (splitFormat (match fs.lookup "output_format" with
                | some (JValue.str s) => s
                | _ => "%b |%s| %t  %h")).1
            right_format :=
              (splitFormat (match fs.lookup "output_format" with
                | some (JValue.str s) => s
                | _ => "%b |%s| %t  %h")).2 },
    ?_, hq1, ?_, ?_, ?_, ?_, ?_, ?_⟩
  · simp only [start, loadConfig, hq, hn, dictGet]
  · exact Int.toNat_le.mpr hn1
  · intro h
    exact hq2 h
  · intro h
    show n.toNat = 5
    rw [hn2 h]
    rfl
  · intro s hs hneq
    show (match fs.lookup "output_style" with
      | some (JValue.str s) =>
          if s = "translation" then OutputStyle.translation
          else OutputStyle.definition
      | _ => OutputStyle.definition) = OutputStyle.definition
    rw [hs]
    simp [hneq]
  · intro h
    show (match fs.lookup "output_style" with
      | some (JValue.str s) =>
          if s = "translation" then OutputStyle.translation
          else OutputStyle.definition
      | _ => OutputStyle.definition) = OutputStyle.definition
    rw [h]
  · intro hfmt
    have hdflt : (match fs.lookup "output_format" with
        | some (JValue.str s) => s
        | _ => "%b |%s| %t  %h") = "%b |%s| %t  %h" := by
      cases hf : fs.lookup "output_format" with
      | none => rfl
      | some v =>
          cases v with
          | str s => exact absurd hf (hfmt s)
          | null => rfl
          | bool b => rfl
          | num q => rfl
          | arr a => rfl
          | obj o => rfl
    constructor
    · show (splitFormat (match fs.lookup "output_format" with
        | some (JValue.str s) => s
        | _ => "%b |%s| %t  %h")).1 = "%b |%s| %t"
      rw [hdflt]
      decide
    · show (splitFormat (match fs.lookup "output_format" with
        | some (JValue.str s) => s
        | _ => "%b |%s| %t  %h")).2 = "  %h"
      rw [hdflt]
      decide

/-- Witness for C5 (amended): the empty configuration object. -/
theorem c5_witness :
    start ConfigFile.missing =
      Except.ok { bar_time_unit := (2 : ℚ) / 10, bar_max_width := 5
                  output_style := OutputStyle.definition
                  left_format := "%b |%s| %t", right_format := "  %h" } :=
  (c5_config_fallback_amended [] (by decide) (by decide)).1

/-- C3: at most one event's output is ever pending deferral (the single
`was_fingerspelling` flag with its single saved field map), and a pending
deferral is resolved exactly once — by the write performed at the start of
the next event (the withheld right segment and a line break appear in the
log immediately after the previous contents, before this event's own left
and right segments, and nowhere else), or by exactly one flush with a
trailing line break at shutdown; without a pending deferral neither
`on_stroked` nor `stop` writes a resolution. -/
theorem c3_single_pending_deferral (env : Env) (st : TTState) (now : ℚ)
    (stroke : Stroke) (ts : List Translation) :
    (st.was_fingerspelling = true →
       (on_stroked env st now stroke ts).file =
         st.file ++
           [rstrip (expand env.right_format
               (if turningPoint stroke ts then { st.items with h := "" } else st.items)),
            "\n",
            expand env.left_format (on_stroked env st now stroke ts).items] ++
           (if (on_stroked env st now stroke ts).was_fingerspelling then []
            else [rstrip (expand env.right_format (on_stroked env st now stroke ts).items),
                  "\n"])) ∧
    (st.was_fingerspelling = false →
       (on_stroked env st now stroke ts).file =
         st.file ++
           [expand env.left_format (on_stroked env st now stroke ts).items] ++
           (if (on_stroked env st now stroke ts).was_fingerspelling then []
            else [rstrip (expand env.right_format (on_stroked env st now stroke ts).items),
                  "\n"])) ∧
    ((stop env st).file =
       if st.was_fingerspelling then
         st.file ++ [rstrip (expand env.right_format st.items), "\n"]
       else st.file) :=
  ⟨resolutionWrite env st now stroke ts,
   noResolutionWrite env st now stroke ts,
   stop_file env st⟩

/-- Witness for C3 at a concrete pending state. -/
theorem c3_witness :
    (on_stroked envS st1 0 stroke0 [tF, tO]).file =
      st1.file ++
        [rstrip (expand envS.right_format
            (if turningPoint stroke0 [tF, tO] then { st1.items with h := "" } else st1.items)),
         "\n",
         expand envS.left_format (on_stroked envS st1 0 stroke0 [tF, tO]).items] ++
        (if (on_stroked envS st1 0 stroke0 [tF, tO]).was_fingerspelling then []
         else [rstrip (expand envS.right_format (on_stroked envS st1 0 stroke0 [tF, tO]).items),
               "\n"]) :=
  (c3_single_pending_deferral envS st1 0 stroke0 [tF, tO]).1 (by decide)

/-- C9: on a correction stroke, or with an empty history snapshot, the
output text is exactly `*`, the hint is empty, and no deferral is pending
after the event. -/
theorem c9_correction_or_empty (env : Env) (st : TTState) (now : ℚ)
    (stroke : Stroke) (ts : List Translation)
    (h : stroke.is_correction = true ∨ ts = []) :
    (on_stroked env st now stroke ts).items.t = "*" ∧
    (on_stroked env st now stroke ts).items.h = "" ∧
    (on_stroked env st now stroke ts).was_fingerspelling = false := by
  have hf : eventFields env stroke ts = ("*", "", false) := by
    rcases h with h | h
    · unfold eventFields
      cases hgl : ts.getLast? <;> simp [h]
    · subst h; rfl
  refine ⟨?_, ?_, ?_⟩
  · rw [(on_stroked_flag_items env st now stroke ts).2.1, hf]
  · rw [(on_stroked_flag_items env st now stroke ts).2.2, hf]
  · rw [(on_stroked_flag_items env st now stroke ts).1, hf]

/-- Witness for C9: a correction stroke with a non-empty history. -/
theorem c9_witness :
    (on_stroked envS st0 0 strokeC [tF]).items.t = "*" ∧
    (on_stroked envS st0 0 strokeC [tF]).items.h = "" ∧
    (on_stroked envS st0 0 strokeC [tF]).was_fingerspelling = false :=
  c9_correction_or_empty envS st0 0 strokeC [tF] (Or.inl rfl)

/-- C10: on all three write paths (resolution of a deferred segment,
immediate write, shutdown flush) the expanded right segment written before
the line break is a fixed point of `rstrip`, i.e. carries no trailing
whitespace; and with the default template's right half an empty hint
expands to nothing at all. -/
theorem c10_right_segment_stripped (env : Env) (st : TTState) (now : ℚ)
    (stroke : Stroke) (ts : List Translation) :
    (∃ R₁ R₂ : String, rstrip R₁ = R₁ ∧ rstrip R₂ = R₂ ∧
       (on_stroked env st now stroke ts).file =
         st.file ++
           (if st.was_fingerspelling then [R₁, "\n"] else []) ++
           [expand env.left_format (on_stroked env st now stroke ts).items] ++
           (if (on_stroked env st now stroke ts).was_fingerspelling then []
            else [R₂, "\n"])) ∧
    (∃ R₃ : String, rstrip R₃ = R₃ ∧
       (stop env st).file =
         st.file ++ (if st.was_fingerspelling then [R₃, "\n"] else [])) ∧
    (∀ bar steno out : String,
       rstrip (expand "  %h" { b := bar, s := steno, t := out, h := "" }) = "") := by
  refine ⟨⟨rstrip (expand env.right_format
        (if turningPoint stroke ts then { st.items with h := "" } else st.items)),
      rstrip (expand env.right_format (on_stroked env st now stroke ts).items),
      rstrip_idem _, rstrip_idem _, ?_⟩,
    ⟨rstrip (expand env.right_format st.items), rstrip_idem _, ?_⟩,
    fun _ _ _ => rfl⟩
  · cases hfs : st.was_fingerspelling
    · simpa [hfs] using noResolutionWrite env st now stroke ts hfs
    · simpa [hfs] using resolutionWrite env st now stroke ts hfs
  · rw [stop_file]
    cases hfs : st.was_fingerspelling <;> simp [hfs]

/-- Counterexample to C1 as stated: at the second `&o` event the history is
non-empty, its newest entry IS fingerspelling, the stroke is not a
correction and nothing was replaced, so none of the claim's four clauses
holds and the claim demands that the original hint `>fo` be preserved; the
code instead clears it and writes an empty right segment. -/
theorem c1_counterexample :
    st2.was_fingerspelling = true ∧
    [tF, tO, tO].getLast? = some tO ∧
    is_fingerspelling tO = true ∧
    stroke0.is_correction = false ∧
    tO.replaced = false ∧
    rstrip (expand envS.right_format st2.items) = ">fo" ∧
    st3.file = st2.file ++ ["", "\n", "o|"] ∧
    st3.file ≠ st2.file ++ [">fo", "\n", "o|"] := by
  decide

/-- C1 (amended): when an event arrives while a previous event's right
segment is deferred, the previous event's hint field is cleared before the
deferred segment is expanded and written if and only if the history
snapshot is now empty, OR the newest history entry IS fingerspelling, OR
the current stroke is a correction, OR the newest entry's replaced-flag is
set; when none of these holds the original hint is preserved.  (The claim
had the polarity of the fingerspelling clause inverted.) -/
theorem c1_hint_suppression_amended (env : Env) (st : TTState) (now : ℚ)
    (stroke : Stroke) (ts : List Translation)
    (hfs : st.was_fingerspelling = true) :
    ((ts = [] ∨ stroke.is_correction = true ∨
        (∃ last, ts.getLast? = some last ∧
          (is_fingerspelling last = true ∨ last.replaced = true))) →
      ∃ rest, (on_stroked env st now stroke ts).file =
        st.file ++ [rstrip (expand env.right_format { st.items with h := "" }), "\n"] ++ rest) ∧
    ((∃ last, ts.getLast? = some last ∧ is_fingerspelling last = false ∧
        stroke.is_correction = false ∧ last.replaced = false) →
      ∃ rest, (on_stroked env st now stroke ts).file =
        st.file ++ [rstrip (expand env.right_format st.items), "\n"] ++ rest) := by
  constructor
  · intro h
    have htp : turningPoint stroke ts = true := by
      rcases h with h | h | ⟨last, hl, h⟩
      · subst h; rfl
      · unfold turningPoint
        cases ts.getLast? <;> simp [h]
      · rw [turningPoint_of_last stroke ts last hl]
        rcases h with h | h <;> simp [h]
    refine ⟨[expand env.left_format (on_stroked env st now stroke ts).items] ++
        (if (on_stroked env st now stroke ts).was_fingerspelling then []
         else [rstrip (expand env.right_format (on_stroked env st now stroke ts).items),
               "\n"]), ?_⟩
    rw [resolutionWrite env st now stroke ts hfs]
    simp [htp, List.append_assoc]
  · intro ⟨last, hl, h₁, h₂, h₃⟩
    have htp : turningPoint stroke ts = false := by
      rw [turningPoint_of_last stroke ts last hl]
      simp [h₁, h₂, h₃]
    refine ⟨[expand env.left_format (on_stroked env st now stroke ts).items] ++
        (if (on_stroked env st now stroke ts).was_fingerspelling then []
         else [rstrip (expand env.right_format (on_stroked env st now stroke ts).items),
               "\n"]), ?_⟩
    rw [resolutionWrite env st now stroke ts hfs]
    simp [htp, List.append_assoc]

/-- Witness for C1 (amended): the second `&o` event suppresses the pending
hint because the newest entry is fingerspelling. -/
theorem c1_witness :
    ∃ rest, (on_stroked envS st2 0 stroke0 [tF, tO, tO]).file =
      st2.file ++ [rstrip (expand envS.right_format { st2.items with h := "" }), "\n"] ++ rest :=
  (c1_hint_suppression_amended envS st2 0 stroke0 [tF, tO, tO] (by decide)).1
    (Or.inr (Or.inr ⟨tO, by decide, Or.inl (by decide)⟩))

/-- Counterexample to C2 as stated: in the run `&f &o &o` followed by the
merge word `foo`, the second event's withheld right segment had hint `>fo`,
yet the withheld segments are NOT all resolved un-redacted when the merge
event arrives — the second event's segment was already resolved (redacted
to empty) at the third event, so the string `>fo` followed by a line break
never appears anywhere in the final log. -/
theorem c2_counterexample :
    st2.was_fingerspelling = true ∧
    st2.items.h = ">fo" ∧
    is_fingerspelling tW = false ∧
    stroke0.is_correction = false ∧
    tW.replaced = false ∧
    String.join st4.file = "f|\no|\no|>foo\nfoo|>>foofoo\n" ∧
    containsSeq (rstrip (expand envS.right_format st2.items) ++ "\n").toList
      (String.join st4.file).toList = false := by
  decide

/-- C2 (amended): for an event whose newest history entry is fingerspelling
(and which is not a correction), the right segment is withheld at the time
of that event — the log then ends with the event's left segment and no line
break.  The withheld segment is resolved at the NEXT event: while the run
continues (the next event's newest entry is again fingerspelling) the
resolution is written with its hint cleared; when the run ends in a merge
event (not a correction, newest entry neither fingerspelling nor a
replacement) the withheld segment is resolved with its hint un-redacted,
and the merge event's own line — left segment, right segment, line break —
carries the merged word as output text. -/
theorem c2_run_resolution_amended (env : Env) (st : TTState) (now₁ now₂ : ℚ)
    (stroke₁ stroke₂ : Stroke) (ts₁ ts₂ : List Translation)
    (last₁ last₂ : Translation)
    (h₁l : ts₁.getLast? = some last₁) (h₁fs : is_fingerspelling last₁ = true)
    (h₁c : stroke₁.is_correction = false)
    (h₂l : ts₂.getLast? = some last₂) (h₂c : stroke₂.is_correction = false) :
    (on_stroked env st now₁ stroke₁ ts₁).was_fingerspelling = true ∧
    (∃ pre, (on_stroked env st now₁ stroke₁ ts₁).file =
       pre ++ [expand env.left_format (on_stroked env st now₁ stroke₁ ts₁).items]) ∧
    (is_fingerspelling last₂ = true →
       ∃ rest,
         (on_stroked env (on_stroked env st now₁ stroke₁ ts₁) now₂ stroke₂ ts₂).file =
           (on_stroked env st now₁ stroke₁ ts₁).file ++
             [rstrip (expand env.right_format
                 { (on_stroked env st now₁ stroke₁ ts₁).items with h := "" }),
              "\n"] ++ rest) ∧
    (is_fingerspelling last₂ = false → last₂.replaced = false →
       (on_stroked env (on_stroked env st now₁ stroke₁ ts₁) now₂ stroke₂ ts₂).file =
         (on_stroked env st now₁ stroke₁ ts₁).file ++
           [rstrip (expand env.right_format (on_stroked env st now₁ stroke₁ ts₁).items),
            "\n",
            expand env.left_format
              (on_stroked env (on_stroked env st now₁ stroke₁ ts₁) now₂ stroke₂ ts₂).items,
            rstrip (expand env.right_format
              (on_stroked env (on_stroked env st now₁ stroke₁ ts₁) now₂ stroke₂ ts₂).items),
            "\n"] ∧
       (∀ w, env.output_style = OutputStyle.definition → last₂.english = some w →
          last₂.strokes = 1 →
          (on_stroked env (on_stroked env st now₁ stroke₁ ts₁) now₂ stroke₂ ts₂).items.t =
            showWhitespace w)) := by
  have hflag₁ : (on_stroked env st now₁ stroke₁ ts₁).was_fingerspelling = true := by
    rw [(on_stroked_flag_items env st now₁ stroke₁ ts₁).1,
      eventFields_flag env stroke₁ ts₁ last₁ h₁l h₁c, h₁fs]
  refine ⟨hflag₁, ?_, ?_, ?_⟩
  · cases hfs : st.was_fingerspelling
    · refine ⟨st.file, ?_⟩
      have := noResolutionWrite env st now₁ stroke₁ ts₁ hfs
      rw [this, hflag₁]
      simp
    · refine ⟨st.file ++
        [rstrip (expand env.right_format
            (if turningPoint stroke₁ ts₁ then { st.items with h := "" } else st.items)),
         "\n"], ?_⟩
      have := resolutionWrite env st now₁ stroke₁ ts₁ hfs
      rw [this, hflag₁]
      simp
  · intro hfs₂
    have htp : turningPoint stroke₂ ts₂ = true := by
      rw [turningPoint_of_last stroke₂ ts₂ last₂ h₂l, hfs₂]
      simp
    refine ⟨[expand env.left_format
        (on_stroked env (on_stroked env st now₁ stroke₁ ts₁) now₂ stroke₂ ts₂).items] ++
        (if (on_stroked env (on_stroked env st now₁ stroke₁ ts₁) now₂ stroke₂ ts₂).was_fingerspelling
         then []
         else [rstrip (expand env.right_format
             (on_stroked env (on_stroked env st now₁ stroke₁ ts₁) now₂ stroke₂ ts₂).items),
           "\n"]), ?_⟩
    rw [resolutionWrite env (on_stroked env st now₁ stroke₁ ts₁) now₂ stroke₂ ts₂ hflag₁]
    simp [htp, List.append_assoc]
  · intro hfs₂ hrep
    have htp : turningPoint stroke₂ ts₂ = false := by
      rw [turningPoint_of_last stroke₂ ts₂ last₂ h₂l]
      simp [hfs₂, h₂c, hrep]
    have hflag₂ :
        (on_stroked env (on_stroked env st now₁ stroke₁ ts₁) now₂ stroke₂ ts₂).was_fingerspelling
          = false := by
      rw [(on_stroked_flag_items env (on_stroked env st now₁ stroke₁ ts₁) now₂ stroke₂ ts₂).1,
        eventFields_flag env stroke₂ ts₂ last₂ h₂l h₂c, hfs₂]
    constructor
    · rw [resolutionWrite env (on_stroked env st now₁ stroke₁ ts₁) now₂ stroke₂ ts₂ hflag₁,
        hflag₂]
      simp [htp]
    · intro w hstyle heng hstk
      rw [(on_stroked_flag_items env (on_stroked env st now₁ stroke₁ ts₁) now₂ stroke₂ ts₂).2.1]
      unfold eventFields
      rw [h₂l]
      simp [h₂c, hstyle, heng, hstk, String.empty_append]

/-- Witness for C2 (amended): the second `&o` event followed by the merge
event `foo`; the merge resolves the withheld segment un-redacted and its
own line carries `foo`. -/
theorem c2_witness :
    (on_stroked envS st2 0 stroke0 [tF, tO, tO]).was_fingerspelling = true ∧
    (on_stroked envS (on_stroked envS st2 0 stroke0 [tF, tO, tO]) 0 stroke0
        [tF, tO, tO, tW]).file =
      (on_stroked envS st2 0 stroke0 [tF, tO, tO]).file ++
        [rstrip (expand envS.right_format (on_stroked envS st2 0 stroke0 [tF, tO, tO]).items),
         "\n",
         expand envS.left_format
           (on_stroked envS (on_stroked envS st2 0 stroke0 [tF, tO, tO]) 0 stroke0
             [tF, tO, tO, tW]).items,
         rstrip (expand envS.right_format
           (on_stroked envS (on_stroked envS st2 0 stroke0 [tF, tO, tO]) 0 stroke0
             [tF, tO, tO, tW]).items),
         "\n"] ∧
    (on_stroked envS (on_stroked envS st2 0 stroke0 [tF, tO, tO]) 0 stroke0
        [tF, tO, tO, tW]).items.t = showWhitespace "foo" := by
  have h := c2_run_resolution_amended envS st2 0 0 stroke0 stroke0
    [tF, tO, tO] [tF, tO, tO, tW] tO tW (by decide) (by decide) (by decide)
    (by decide) (by decide)
  exact ⟨h.1, (h.2.2.2 (by decide) (by decide)).1,
    (h.2.2.2 (by decide) (by decide)).2 "foo" rfl rfl rfl⟩

end TapeyTape
